import Mathlib

/-!
Shallow embedding of the RunWatch server's workflow controller
(src/server/src/controllers/workflowController.js) together with the
spec-modelled pieces of the ingestion engine whose implementation file
(src/services/workflowService.js) is not part of the provided sources.

Strings model JavaScript strings, Int models JavaScript numbers where the
controller only ever handles integral values (parsed query parameters and
millisecond timestamps), and Option models null/undefined.  The MongoDB
collection is modelled as the list of stored documents in insertion order;
the query operators actually used by the controller (equality, $in, an
escaped case-insensitive $regex, distinct, find + sort) are given explicit
executable semantics.
-/

namespace RunWatch

/-- Catalogue entry of a workflow definition: { id, name, path }. -/
structure Workflow where
  id : Nat
  name : String
  path : String
deriving DecidableEq

/-- Embedded repository sub-document: { fullName, workflows }. -/
structure Repository where
  fullName : String
  workflows : List Workflow
deriving DecidableEq

/-- Embedded run sub-document with the fields the controller reads:
status, conclusion (null until completed), created_at and updated_at
timestamps in milliseconds. -/
structure RunInfo where
  status : String
  conclusion : Option String
  created_at : Int
  updated_at : Int
deriving DecidableEq

/-- Embedded job sub-document, keyed by jobId inside the jobs array. -/
structure Job where
  jobId : Nat
  name : String
  status : String
  conclusion : Option String
deriving DecidableEq

/-- A stored WorkflowRun document (root aggregate of the data model). -/
structure WorkflowRun where
  runId : Nat
  repository : Repository
  workflow : Workflow
  run : RunInfo
  jobs : List Job
deriving DecidableEq

/-- The non-terminal statuses listed by the controller's status filter:
in the source, the array tested with includes(status). -/
def nonTerminalStatuses : List String := ["in_progress", "queued", "waiting", "pending"]

/-- JavaScript falsy-default on a parsed integer: x || d.  The argument
none models NaN, i.e. parseInt of a missing or non-numeric input; the
integer 0 is falsy and also falls back to the default. -/
def jsOrInt : Option Int → Int → Int
  | none, d => d
  | some v, d => if v = 0 then d else v

/-- Effective page number: Math.max(1, parseInt(req.query.page) || 1). -/
def effectivePage (p : Option Int) : Int := max 1 (jsOrInt p 1)

/-- Effective page size: Math.min(100, Math.max(1, parseInt(req.query.pageSize) || 30)). -/
def effectivePageSize (ps : Option Int) : Int := min 100 (max 1 (jsOrInt ps 30))

/-- The characters escaped by the controller before building a $regex:
the character class of searchQuery.replace, written [.*+?^$\x7b\x7d()|[\]\\] . -/
def regexMeta : List Char := ['.', '*', '+', '?', '^', '$', '\x7b', '\x7d', '(', ')', '|', '[', ']', '\\']

/-- Escapes every regex metacharacter of a character list by prepending a
backslash, mirroring searchQuery.replace with replacement \\$& . -/
def escapeChars : List Char → List Char
  | [] => []
  | c :: cs => if c ∈ regexMeta then '\\' :: c :: escapeChars cs else c :: escapeChars cs

/-- String form of the escaping step. -/
def escapeRegex (s : String) : String := String.mk (escapeChars s.data)

/-- Truncation of the raw search input: String(req.query.search).slice(0, 100). -/
def searchTrunc (s : String) : String := String.mk (s.data.take 100)

/-- Effective search string: req.query.search ? String(req.query.search).slice(0, 100) : ''. -/
def effectiveSearch : Option String → String
  | none => ""
  | some s => if s = "" then "" else searchTrunc s

/-- Effective status parameter: req.query.status || 'all'. -/
def effectiveStatus : Option String → String
  | none => "all"
  | some s => if s = "" then "all" else s

/-- Interprets a regex pattern that denotes a plain literal: a backslash
makes the following character literal, and an unescaped metacharacter
means the pattern is not a literal (it would act as an operator). -/
def parseLiteral : List Char → Option (List Char)
  | [] => some []
  | c :: cs =>
    if c = '\\' then
      match cs with
      | [] => none
      | d :: ds => (parseLiteral ds).map (fun l => d :: l)
    else if c ∈ regexMeta then none
    else (parseLiteral cs).map (fun l => c :: l)

/-- ASCII lowercasing of a character list, modelling the regex i option. -/
def lowerChars (l : List Char) : List Char := l.map Char.toLower

/-- Whether the first list starts with the second one. -/
def beginsWith : List Char → List Char → Bool
  | _, [] => true
  | [], _ :: _ => false
  | h :: hs, n :: ns => (h == n) && beginsWith hs ns

/-- Whether the second list occurs contiguously inside the first one. -/
def containsSeq : List Char → List Char → Bool
  | [], needle => needle.isEmpty
  | h :: hs, needle => beginsWith (h :: hs) needle || containsSeq hs needle

/-- Case-insensitive match of a literal-denoting regex pattern against a
subject string ($regex with $options i); a pattern that is not a plain
literal yields no match under this semantics. -/
def regexMatchCI (pat : String) (s : String) : Bool :=
  match parseLiteral pat.data with
  | some lit => containsSeq (lowerChars s.data) (lowerChars lit)
  | none => false

/-- The repository.fullName pattern the list query installs:
present exactly when the effective search string is non-empty. -/
def searchPatternOf (search : String) : Option String :=
  if search = "" then none else some (escapeRegex search)

/-- The MongoDB query object built by getAllWorkflowRuns: an optional
escaped pattern on repository.fullName plus optional equality filters on
run.status and run.conclusion. -/
structure RunsQuery where
  repoPattern : Option String
  runStatus : Option String
  runConclusion : Option String
deriving DecidableEq

/-- Builds the list query's filter from the effective search and status
strings, as lines 68-84 of the controller do: a non-terminal status value
constrains run.status only, any other non-'all' value is treated as a
conclusion and additionally pins run.status to 'completed'. -/
def buildQuery (search status : String) : RunsQuery :=
  let pat := searchPatternOf search
  if status = "all" then ⟨pat, none, none⟩
  else if status ∈ nonTerminalStatuses then ⟨pat, some status, none⟩
  else ⟨pat, some "completed", some status⟩

/-- The filter actually used by the two getAllWorkflowRuns queries. -/
def listQueryOf (searchQ statusQ : Option String) : RunsQuery :=
  buildQuery (effectiveSearch searchQ) (effectiveStatus statusQ)

/-- Semantics of the optional repository.fullName pattern. -/
def matchesRepoPattern (pat : Option String) (name : String) : Bool :=
  match pat with
  | none => true
  | some p => regexMatchCI p name

/-- Semantics of the status/conclusion part of the query (the part the
controller keeps in the final per-page query as nonRepoFilters). -/
def matchesStatusPart (q : RunsQuery) (d : WorkflowRun) : Bool :=
  (match q.runStatus with
   | none => true
   | some s => d.run.status == s) &&
  (match q.runConclusion with
   | none => true
   | some c => d.run.conclusion == some c)

/-- Semantics of the whole query object. -/
def matchesQuery (q : RunsQuery) (d : WorkflowRun) : Bool :=
  matchesRepoPattern q.repoPattern d.repository.fullName && matchesStatusPart q d

/-- First-occurrence deduplication, with a seen accumulator. -/
def dedupGo : List String → List String → List String
  | [], _ => []
  | x :: xs, seen => if x ∈ seen then dedupGo xs seen else x :: dedupGo xs (x :: seen)

/-- Distinct values in first-occurrence order. -/
def dedupFirst (l : List String) : List String := dedupGo l []

/-- WorkflowRun.distinct of repository.fullName under the query. -/
def distinctRepos (db : List WorkflowRun) (q : RunsQuery) : List String :=
  dedupFirst ((db.filter (fun d => matchesQuery q d)).map (fun d => d.repository.fullName))

/-- Insertion step of the descending sort on run.created_at. -/
def insertByCreated (d : WorkflowRun) : List WorkflowRun → List WorkflowRun
  | [] => [d]
  | x :: xs =>
    if x.run.created_at ≤ d.run.created_at then d :: x :: xs else x :: insertByCreated d xs

/-- Sort modelling .sort with run.created_at descending. -/
def sortByCreatedDesc : List WorkflowRun → List WorkflowRun
  | [] => []
  | x :: xs => insertByCreated x (sortByCreatedDesc xs)

/-- Pagination metadata returned by the list endpoints. -/
structure Pagination where
  total : Nat
  page : Int
  pageSize : Int
  totalPages : Nat
deriving DecidableEq

/-- Payload of getAllWorkflowRuns: data and pagination metadata. -/
structure ListResult where
  data : List WorkflowRun
  pagination : Pagination
deriving DecidableEq

/-- The window of repository names served by one page:
distinctRepos.slice(skip, skip + pageSize) with skip = (page-1)*pageSize. -/
def pageSlice (repos : List String) (page pageSize : Int) : List String :=
  (repos.drop ((page - 1) * pageSize).toNat).take pageSize.toNat

/-- Nat model of Math.ceil(totalCount / pageSize) for a positive divisor. -/
def ceilNat (a b : Nat) : Nat := (a + b - 1) / b

/-- The getAllWorkflowRuns controller (lines 59-117): clamp the paging
parameters, build the filter, page over the distinct repositories first,
then fetch every run of the page's repositories that still satisfies the
status part of the filter, sorted by run.created_at descending. -/
def getAllWorkflowRuns (db : List WorkflowRun) (pageQ pageSizeQ : Option Int)
    (searchQ statusQ : Option String) : ListResult :=
  let page := effectivePage pageQ
  let pageSize := effectivePageSize pageSizeQ
  let q := listQueryOf searchQ statusQ
  let repos := distinctRepos db q
  let paginatedRepos := pageSlice repos page pageSize
  let finalRuns := db.filter
    (fun d => decide (d.repository.fullName ∈ paginatedRepos) && matchesStatusPart q d)
  { data := sortByCreatedDesc finalRuns,
    pagination :=
      { total := repos.length, page := page, pageSize := pageSize,
        totalPages := ceilNat repos.length pageSize.toNat } }

/-- Effective workflowName query parameter of the per-repository listing:
the JS truthiness test if (workflowName) makes an empty string behave like
an absent parameter. -/
def effectiveWorkflowName : Option String → Option String
  | none => none
  | some w => if w = "" then none else some w

/-- The per-repository find filter: repository.fullName equality plus the
optional workflow.name equality (lines 139-142 of the controller). -/
def repoRunFilter (repoPath : String) (wn : Option String) (d : WorkflowRun) : Bool :=
  (d.repository.fullName == repoPath) &&
  (match wn with
   | none => true
   | some w => d.workflow.name == w)

/-- An entry of the per-repository response: a stored run re-wrapped with
the repository's full workflow catalogue, or (run := none) the synthetic
catalogue-only placeholder pushed when a requested workflow has no runs. -/
structure RepoEntry where
  repository : Repository
  workflow : Workflow
  run : Option RunInfo
  jobs : List Job
deriving DecidableEq

/-- Payload of getRepoWorkflowRuns. -/
structure RepoListResult where
  data : List RepoEntry
  pagination : Pagination
deriving DecidableEq

/-- Outcome of the per-repository controller: a success payload or an
HTTP error status code. -/
inductive RepoResponse where
  | ok (r : RepoListResult)
  | err (code : Nat)
deriving DecidableEq

/-- Number of data entries of a per-repository response. -/
def RepoResponse.dataLength : RepoResponse → Nat
  | .ok r => r.data.length
  | .err _ => 0

/-- Pagination total of a per-repository response. -/
def RepoResponse.totalCount : RepoResponse → Nat
  | .ok r => r.pagination.total
  | .err _ => 0

/-- Whether a per-repository response is a success response. -/
def RepoResponse.isSuccess : RepoResponse → Bool
  | .ok _ => true
  | .err _ => false

/-- Re-wraps a stored run for the response, overriding the embedded
repository.workflows with the full catalogue of the repository document
(lines 147-153 of the controller). -/
def runToEntry (catalogue : List Workflow) (d : WorkflowRun) : RepoEntry :=
  { repository := { fullName := d.repository.fullName, workflows := catalogue },
    workflow := d.workflow, run := some d.run, jobs := d.jobs }

/-- The synthetic placeholder block of lines 156-171: when no run matched,
a workflow name was requested, and the catalogue is non-empty, the entry
for the requested workflow (if catalogued) is pushed without run data. -/
def syntheticEntries (repoDoc : WorkflowRun) (wn : Option String) (runsEmpty : Bool) : List RepoEntry :=
  match wn with
  | none => []
  | some w =>
    if runsEmpty && !repoDoc.repository.workflows.isEmpty then
      match repoDoc.repository.workflows.find? (fun k => k.name == w) with
      | some k =>
        [{ repository := { fullName := repoDoc.repository.fullName,
                           workflows := repoDoc.repository.workflows },
           workflow := { id := k.id, name := k.name, path := k.path },
           run := none, jobs := [] }]
      | none => []
    else []

/-- The getRepoWorkflowRuns controller (lines 119-185): 400 when the path
parameter is missing, an empty success payload when no document of that
repository exists, and otherwise every matching run (sorted newest
run.created_at first) wrapped with the full catalogue; the page and
pageSize query parameters are never read. -/
def getRepoWorkflowRuns (db : List WorkflowRun) (repoPath : String)
    (workflowNameQ : Option String) (pageQ pageSizeQ : Option Int) : RepoResponse :=
  if repoPath = "" then .err 400
  else
    match db.find? (fun d => d.repository.fullName == repoPath) with
    | none => .ok { data := [], pagination := { total := 0, page := 1, pageSize := 0, totalPages := 1 } }
    | some repoDoc =>
      let wn := effectiveWorkflowName workflowNameQ
      let runs := sortByCreatedDesc (db.filter (repoRunFilter repoPath wn))
      let entries := runs.map (runToEntry repoDoc.repository.workflows) ++
        syntheticEntries repoDoc wn runs.isEmpty
      .ok { data := entries,
            pagination := { total := runs.length, page := 1,
                            pageSize := (runs.length : Int), totalPages := 1 } }

/-- The run.created_at timestamp carried by a response entry, if any. -/
def entryCreated (e : RepoEntry) : Option Int := e.run.map (fun r => r.created_at)

/-- Response type of the ingestion endpoint handler. -/
inductive ControllerResponse (α : Type) where
  | success (payload : α) (message : String)
  | failure (message : String) (code : Nat)
deriving DecidableEq

/-- The handleWorkflowRun controller (lines 49-57): awaits the service's
processing result; on success it emits one workflowUpdate event carrying
the post-merge record and answers with that record, on a thrown error it
answers 500 and emits nothing.  The argument models the settled promise of
workflowService.processWorkflowRun(req.body). -/
def handleWorkflowRun (processResult : Except String WorkflowRun) :
    ControllerResponse WorkflowRun × List (String × WorkflowRun) :=
  match processResult with
  | .ok r => (.success r "Workflow run processed successfully", [("workflowUpdate", r)])
  | .error _ => (.failure "Error processing workflow run" 500, [])

/-- Outcome of the admin-token middleware: call next() or answer an error
status code. -/
inductive GuardOutcome where
  | proceed
  | reject (code : Nat)
deriving DecidableEq

/-- The token the client provides: a Bearer token from the authorization
header when that header starts with the seven characters of the marker,
otherwise the x-admin-token header (lines 21-24; missing headers are the
empty string, and the JS fallback treats an empty bearer token as absent). -/
def extractProvided (authHeader tokenHeader : String) : String :=
  let bearer :=
    if beginsWith authHeader.data "Bearer ".data then String.mk (authHeader.data.drop 7) else ""
  if bearer = "" then tokenHeader else bearer

/-- The requireAdminToken middleware (lines 13-44), the digest computation
abstracted as a function h into an arbitrary type with decidable equality
(the source hashes both tokens with SHA-256 and compares the digests in
constant time): 503 when no admin token is configured, 401 when no token
is provided or the digests differ, next() otherwise. -/
def requireAdminToken {β : Type} [DecidableEq β] (h : String → β)
    (adminToken authHeader tokenHeader : String) : GuardOutcome :=
  if adminToken = "" then .reject 503
  else
    let provided := extractProvided authHeader tokenHeader
    if provided = "" then .reject 401
    else if h provided = h adminToken then .proceed
    else .reject 401

/-- Modelled from the spec: the ordering policy of the Ingestion Engine
(spec section 4.4) as implemented by workflowService.processWorkflowRun,
whose file src/services/workflowService.js is not among the provided
sources.  An incoming run event whose updatedAt is older than the stored
record's must not regress a completed status back to a non-terminal one:
such a stale event is discarded; every other run event replaces the run
sub-document. -/
def ingestRunEvent (stored : WorkflowRun) (incoming : RunInfo) : WorkflowRun :=
  if incoming.updated_at < stored.run.updated_at ∧ stored.run.status = "completed" ∧
      incoming.status ∈ nonTerminalStatuses
  then stored
  else { stored with run := incoming }

/-- Upsert into the jobs array keyed by jobId: replace the entry with the
same jobId when present, append otherwise (data-model invariant of
spec section 3). -/
def upsertJob (jobs : List Job) (j : Job) : List Job :=
  if jobs.any (fun k => k.jobId == j.jobId)
  then jobs.map (fun k => if k.jobId == j.jobId then j else k)
  else jobs ++ [j]

/-- Modelled from the spec: a job sub-update of the Ingestion Engine
(spec sections 3 and 4.4) merges into the stored run's jobs array by
jobId and leaves the run sub-document untouched. -/
def ingestJobEvent (stored : WorkflowRun) (j : Job) : WorkflowRun :=
  { stored with jobs := upsertJob stored.jobs j }

/-- Builds a minimal stored document for concrete test data. -/
def sampleRun (repo : String) (ca : Int) : WorkflowRun :=
  { runId := 0,
    repository := { fullName := repo, workflows := [] },
    workflow := { id := 1, name := "ci", path := "ci.yml" },
    run := { status := "completed", conclusion := some "success", created_at := ca, updated_at := ca },
    jobs := [] }

/-- Dataset of the spec's pagination-boundary scenario: three repositories
holding 2, 1 and 5 runs respectively. -/
def sampleDb3 : List WorkflowRun :=
  [sampleRun "org/alpha" 1, sampleRun "org/alpha" 2,
   sampleRun "org/beta" 3,
   sampleRun "org/gamma" 4, sampleRun "org/gamma" 5, sampleRun "org/gamma" 6,
   sampleRun "org/gamma" 7, sampleRun "org/gamma" 8]

/-- A completed run with conclusion failure, for concrete filter checks. -/
def failureRunSample : WorkflowRun :=
  { runId := 11,
    repository := { fullName := "org/alpha", workflows := [] },
    workflow := { id := 1, name := "ci", path := "ci.yml" },
    run := { status := "completed", conclusion := some "failure", created_at := 2, updated_at := 2 },
    jobs := [] }

/-- One repository holding a success run and a failure run. -/
def mixedDb : List WorkflowRun := [sampleRun "org/alpha" 1, failureRunSample]

/-- A completed run whose conclusion is success, for the status=completed
edge case. -/
def completedSuccessRun : WorkflowRun := sampleRun "org/x" 0

/-- Two runs of one repository carrying a one-workflow catalogue. -/
def repoDb : List WorkflowRun :=
  [ { runId := 1,
      repository := { fullName := "org/alpha", workflows := [⟨1, "ci", "ci.yml"⟩] },
      workflow := { id := 1, name := "ci", path := "ci.yml" },
      run := { status := "completed", conclusion := some "success", created_at := 5, updated_at := 5 },
      jobs := [] },
    { runId := 2,
      repository := { fullName := "org/alpha", workflows := [⟨1, "ci", "ci.yml"⟩] },
      workflow := { id := 1, name := "ci", path := "ci.yml" },
      run := { status := "completed", conclusion := some "failure", created_at := 9, updated_at := 9 },
      jobs := [] } ]

/-- The expected per-repository payload for repoDb, workflow ci. -/
def repoResult : RepoListResult :=
  { data :=
      [ { repository := { fullName := "org/alpha", workflows := [⟨1, "ci", "ci.yml"⟩] },
          workflow := { id := 1, name := "ci", path := "ci.yml" },
          run := some { status := "completed", conclusion := some "failure", created_at := 9, updated_at := 9 },
          jobs := [] },
        { repository := { fullName := "org/alpha", workflows := [⟨1, "ci", "ci.yml"⟩] },
          workflow := { id := 1, name := "ci", path := "ci.yml" },
          run := some { status := "completed", conclusion := some "success", created_at := 5, updated_at := 5 },
          jobs := [] } ],
    pagination := { total := 2, page := 1, pageSize := 2, totalPages := 1 } }

/-- One stored document whose catalogue lists a workflow (build) that no
stored run belongs to. -/
def catalogueOnlyDb : List WorkflowRun :=
  [ { runId := 3,
      repository := { fullName := "org/solo", workflows := [⟨9, "build", "build.yml"⟩] },
      workflow := { id := 1, name := "ci", path := "ci.yml" },
      run := { status := "completed", conclusion := some "success", created_at := 1, updated_at := 1 },
      jobs := [] } ]

/-- A stored completed run for the ingestion scenario. -/
def storedCompletedRun : WorkflowRun :=
  { runId := 42,
    repository := { fullName := "org/alpha", workflows := [] },
    workflow := { id := 1, name := "ci", path := "ci.yml" },
    run := { status := "completed", conclusion := some "success", created_at := 1, updated_at := 10 },
    jobs := [] }

/-- A stale non-terminal run patch, older than storedCompletedRun. -/
def staleQueuedInfo : RunInfo :=
  { status := "queued", conclusion := none, created_at := 1, updated_at := 5 }

/-- A job patch for the ingestion scenario. -/
def sampleJob : Job := { jobId := 7, name := "test", status := "completed", conclusion := some "success" }

/-! Helper lemmas shared by the claim theorems. -/

theorem parseLiteral_escapeChars (l : List Char) : parseLiteral (escapeChars l) = some l := by
  induction l with
  | nil => rfl
  | cons c cs ih =>
    by_cases hm : c ∈ regexMeta
    · simp only [escapeChars, if_pos hm]
      rw [parseLiteral.eq_def]
      simp [ih]
    · have hne : c ≠ '\\' := by
        intro h
        exact hm (by rw [h]; decide)
      simp only [escapeChars, if_neg hm]
      rw [parseLiteral.eq_def]
      simp [hne, hm, ih]

theorem data_escapeRegex (s : String) : (escapeRegex s).data = escapeChars s.data := rfl

theorem containsSeq_nil (hay : List Char) : containsSeq hay [] = true := by
  cases hay <;> simp [containsSeq, beginsWith, List.isEmpty]

theorem mem_insertByCreated {d a : WorkflowRun} {l : List WorkflowRun} :
    a ∈ insertByCreated d l ↔ a = d ∨ a ∈ l := by
  induction l with
  | nil => simp [insertByCreated]
  | cons x xs ih =>
    by_cases h : x.run.created_at ≤ d.run.created_at
    · simp [insertByCreated, h]
    · simp only [insertByCreated, if_neg h, List.mem_cons, ih]
      tauto

theorem mem_sortByCreatedDesc {a : WorkflowRun} {l : List WorkflowRun} :
    a ∈ sortByCreatedDesc l ↔ a ∈ l := by
  induction l with
  | nil => simp [sortByCreatedDesc]
  | cons x xs ih => simp [sortByCreatedDesc, mem_insertByCreated, ih]

/-- Soundness predicate of the descending sort: each element dominates
all later ones on run.created_at. -/
def CreatedDesc (l : List WorkflowRun) : Prop :=
  List.Pairwise (fun a b => b.run.created_at ≤ a.run.created_at) l

theorem createdDesc_insertByCreated {d : WorkflowRun} {l : List WorkflowRun}
    (h : CreatedDesc l) : CreatedDesc (insertByCreated d l) := by
  induction l with
  | nil => simp [insertByCreated, CreatedDesc]
  | cons x xs ih =>
    obtain ⟨hx, hxs⟩ := List.pairwise_cons.mp h
    by_cases hc : x.run.created_at ≤ d.run.created_at
    · rw [insertByCreated, if_pos hc]
      refine List.pairwise_cons.mpr ⟨?_, h⟩
      intro b hb
      rcases List.mem_cons.mp hb with rfl | hb
      · exact hc
      · exact le_trans (hx b hb) hc
    · rw [insertByCreated, if_neg hc]
      refine List.pairwise_cons.mpr ⟨?_, ih hxs⟩
      intro b hb
      rcases mem_insertByCreated.mp hb with rfl | hb
      · exact le_of_lt (lt_of_not_le hc)
      · exact hx b hb

theorem createdDesc_sortByCreatedDesc (l : List WorkflowRun) :
    CreatedDesc (sortByCreatedDesc l) := by
  induction l with
  | nil => simp [sortByCreatedDesc, CreatedDesc]
  | cons x xs ih => exact createdDesc_insertByCreated ih

theorem length_insertByCreated (d : WorkflowRun) (l : List WorkflowRun) :
    (insertByCreated d l).length = l.length + 1 := by
  induction l with
  | nil => rfl
  | cons x xs ih =>
    by_cases h : x.run.created_at ≤ d.run.created_at
    · simp [insertByCreated, h]
    · simp [insertByCreated, h, ih]

theorem length_sortByCreatedDesc (l : List WorkflowRun) :
    (sortByCreatedDesc l).length = l.length := by
  induction l with
  | nil => rfl
  | cons x xs ih => simp [sortByCreatedDesc, length_insertByCreated, ih]

/-! Claim theorems. -/

/-- C1.  Status monotonicity of ingestion: once a stored WorkflowRun is
completed, a run event carrying an older updatedAt can never move its
status back to a non-terminal value, while a job sub-update still merges
into the jobs array (and leaves the status untouched). -/
theorem ingest_status_monotonic (stored : WorkflowRun) (incoming : RunInfo) (j : Job)
    (hc : stored.run.status = "completed")
    (hold : incoming.updated_at < stored.run.updated_at) :
    (ingestRunEvent stored incoming).run.status ∉ nonTerminalStatuses ∧
    (ingestJobEvent stored j).run.status = "completed" ∧
    j ∈ (ingestJobEvent stored j).jobs := by
  refine ⟨?_, hc, ?_⟩
  · unfold ingestRunEvent
    by_cases hm : incoming.status ∈ nonTerminalStatuses
    · rw [if_pos ⟨hold, hc, hm⟩, hc]
      decide
    · rw [if_neg (fun hcontra => hm hcontra.2.2)]
      exact hm
  · show j ∈ upsertJob stored.jobs j
    unfold upsertJob
    by_cases ha : stored.jobs.any (fun k => k.jobId == j.jobId)
    · rw [if_pos ha]
      obtain ⟨k, hk, hkid⟩ := List.any_eq_true.mp ha
      exact List.mem_map.mpr ⟨k, hk, by rw [if_pos hkid]⟩
    · rw [if_neg ha]
      exact List.mem_append_right _ (List.mem_singleton.mpr rfl)

/-- Witness for C1 at a concrete completed run, stale queued patch, and
job patch. -/
theorem ingest_status_monotonic_witness :
    (ingestRunEvent storedCompletedRun staleQueuedInfo).run.status ∉ nonTerminalStatuses ∧
    sampleJob ∈ (ingestJobEvent storedCompletedRun sampleJob).jobs :=
  ⟨(ingest_status_monotonic storedCompletedRun staleQueuedInfo sampleJob (by decide) (by decide)).1,
   (ingest_status_monotonic storedCompletedRun staleQueuedInfo sampleJob (by decide) (by decide)).2.2⟩

/-- C3.  Search input robustness: the effective search string is at most
100 characters long, its escaped form parses back as exactly that literal
string (every metacharacter neutralized), and the repository.fullName
filter built from it matches precisely the case-insensitive literal
substring occurrences, never a pattern interpretation. -/
theorem search_escaped_literal (q name : String) :
    (effectiveSearch (some q)).data.length ≤ 100 ∧
    parseLiteral (escapeRegex (effectiveSearch (some q))).data = some (effectiveSearch (some q)).data ∧
    matchesRepoPattern (searchPatternOf (effectiveSearch (some q))) name =
      containsSeq (lowerChars name.data) (lowerChars (effectiveSearch (some q)).data) := by
  refine ⟨?_, ?_, ?_⟩
  · by_cases h : q = ""
    · simp [effectiveSearch, h]
    · simp only [effectiveSearch, if_neg h, searchTrunc]
      simp
  · rw [data_escapeRegex]
    exact parseLiteral_escapeChars (effectiveSearch (some q)).data
  · by_cases h : effectiveSearch (some q) = ""
    · rw [h]
      show true = containsSeq (lowerChars name.data) (lowerChars [])
      exact (containsSeq_nil (lowerChars name.data)).symm
    · rw [searchPatternOf, if_neg h]
      simp only [matchesRepoPattern, regexMatchCI, data_escapeRegex, parseLiteral_escapeChars]

/-- C4.  Conclusion filtering implies terminal status: a non-'all' status
value outside the non-terminal list constrains both run.conclusion to it
and run.status to completed, while a non-terminal value constrains
run.status only. -/
theorem conclusion_filter_completed (v : String) (d : WorkflowRun) (hall : v ≠ "all") :
    (v ∉ nonTerminalStatuses →
      (matchesStatusPart (buildQuery "" v) d = true ↔
        d.run.status = "completed" ∧ d.run.conclusion = some v)) ∧
    (v ∈ nonTerminalStatuses →
      (matchesStatusPart (buildQuery "" v) d = true ↔ d.run.status = v)) := by
  constructor
  · intro hnt
    rw [buildQuery, if_neg hall, if_neg hnt]
    simp [matchesStatusPart]
  · intro hnt
    rw [buildQuery, if_neg hall, if_pos hnt]
    simp [matchesStatusPart]

/-- Witness for C4 at the conclusion value success and a concrete
completed-with-success run. -/
theorem conclusion_filter_completed_witness :
    matchesStatusPart (buildQuery "" "success") completedSuccessRun = true ↔
      completedSuccessRun.run.status = "completed" ∧
      completedSuccessRun.run.conclusion = some "success" :=
  (conclusion_filter_completed "success" completedSuccessRun (by decide)).1 (by decide)

/-- C9.  The status=completed edge case: completed is treated as a
conclusion value, so the filter demands run.status completed AND
run.conclusion completed; a completed run whose conclusion is success is
not matched. -/
theorem completed_status_treated_as_conclusion (d : WorkflowRun) :
    (buildQuery "" "completed" =
      ⟨none, some "completed", some "completed"⟩) ∧
    (matchesStatusPart (buildQuery "" "completed") d = true ↔
      d.run.status = "completed" ∧ d.run.conclusion = some "completed") ∧
    matchesStatusPart (buildQuery "" "completed") completedSuccessRun = false := by
  refine ⟨by decide, ?_, by decide⟩
  rw [buildQuery, if_neg (by decide : ("completed" : String) ≠ "all"),
    if_neg (by decide : ("completed" : String) ∉ nonTerminalStatuses)]
  simp [matchesStatusPart]

/-- C5 counterexample: a pageSize of 0 is below 1 yet maps to the default
30, not to 1 as the claim states (JavaScript zero is falsy, so
parseInt(0) || 30 yields 30 before the clamp). -/
theorem pageSize_zero_counterexample :
    effectivePageSize (some 0) = 30 ∧ effectivePageSize (some 0) ≠ 1 := by
  decide

/-- C5 as amended: the effective page is always at least 1 (missing,
non-numeric, zero and negative inputs map to 1) and the effective page
size always lies in [1,100]; values above 100 map to 100, negative values
map to 1, and zero maps - like a missing value - to the default 30. -/
theorem pagination_params_clamped (p ps : Option Int) :
    1 ≤ effectivePage p ∧
    1 ≤ effectivePageSize ps ∧ effectivePageSize ps ≤ 100 ∧
    effectivePage none = 1 ∧ effectivePage (some 0) = 1 ∧
    (∀ v : Int, v < 0 → effectivePage (some v) = 1) ∧
    (∀ v : Int, 100 < v → effectivePageSize (some v) = 100) ∧
    (∀ v : Int, v < 0 → effectivePageSize (some v) = 1) ∧
    effectivePageSize none = 30 ∧ effectivePageSize (some 0) = 30 := by
  refine ⟨le_max_left 1 _, le_min (by norm_num) (le_max_left 1 _), min_le_left 100 _,
    by decide, by decide, ?_, ?_, ?_, by decide, by decide⟩
  · intro v hv
    have hne : v ≠ 0 := by omega
    rw [effectivePage, jsOrInt, if_neg hne]
    exact max_eq_left (by omega)
  · intro v hv
    have hne : v ≠ 0 := by omega
    rw [effectivePageSize, jsOrInt, if_neg hne, max_eq_right (by omega)]
    exact min_eq_left (by omega)
  · intro v hv
    have hne : v ≠ 0 := by omega
    rw [effectivePageSize, jsOrInt, if_neg hne, max_eq_left (by omega)]
    exact min_eq_right (by omega)

/-- Witness for C5's amended theorem at page -7 and page sizes 250, -3. -/
theorem pagination_params_clamped_witness :
    effectivePage (some (-7)) = 1 ∧
    effectivePageSize (some 250) = 100 ∧
    effectivePageSize (some (-3)) = 1 :=
  ⟨(pagination_params_clamped (some (-7)) (some 250)).2.2.2.2.2.1 (-7) (by decide),
   (pagination_params_clamped (some (-7)) (some 250)).2.2.2.2.2.2.1 250 (by decide),
   (pagination_params_clamped (some (-7)) (some (-3))).2.2.2.2.2.2.2.1 (-3) (by decide)⟩

/-- C6.  Ingestion notification iff success: the handler emits exactly
one workflowUpdate event precisely when the processing promise resolves,
the payload is the post-merge record the service returned, and a thrown
error yields the 500 failure response with no emission. -/
theorem notify_iff_processed (res : Except String WorkflowRun) :
    ((handleWorkflowRun res).2 ≠ [] ↔ ∃ r, res = Except.ok r) ∧
    (∀ r, res = Except.ok r →
      (handleWorkflowRun res).2 = [("workflowUpdate", r)] ∧
      (handleWorkflowRun res).1 =
        ControllerResponse.success r "Workflow run processed successfully") ∧
    (∀ e, res = Except.error e →
      (handleWorkflowRun res).2 = [] ∧
      (handleWorkflowRun res).1 = ControllerResponse.failure "Error processing workflow run" 500) := by
  cases res with
  | ok r =>
    refine ⟨⟨fun _ => ⟨r, rfl⟩, fun _ => ?_⟩, ?_, ?_⟩
    · simp [handleWorkflowRun]
    · intro r2 hr2
      cases hr2
      exact ⟨rfl, rfl⟩
    · intro e he
      cases he
  | error e =>
    refine ⟨⟨fun hne => absurd rfl hne, fun hex => ?_⟩, ?_, ?_⟩
    · obtain ⟨r, hr⟩ := hex
      cases hr
    · intro r2 hr2
      cases hr2
    · intro e2 he2
      cases he2
      exact ⟨rfl, rfl⟩

/-- Witness for C6 at a resolved and at a rejected processing result. -/
theorem notify_iff_processed_witness :
    (handleWorkflowRun (Except.ok completedSuccessRun)).2 =
      [("workflowUpdate", completedSuccessRun)] ∧
    (handleWorkflowRun (Except.error "store down")).2 = [] :=
  ⟨((notify_iff_processed (Except.ok completedSuccessRun)).2.1 completedSuccessRun rfl).1,
   ((notify_iff_processed (Except.error "store down")).2.2 "store down" rfl).1⟩

/-- C8.  The admin guard is fail-closed and denies-iff: with an injective
digest function, the handler proceeds exactly when a token is configured
and the provided token's digest equals the configured token's digest; an
unconfigured server answers 503 and a missing or non-matching token 401. -/
theorem admin_guard_fail_closed {β : Type} [DecidableEq β] (h : String → β)
    (hinj : Function.Injective h) (adminToken authHeader tokenHeader : String) :
    (requireAdminToken h adminToken authHeader tokenHeader = GuardOutcome.proceed ↔
      adminToken ≠ "" ∧ h (extractProvided authHeader tokenHeader) = h adminToken) ∧
    (adminToken = "" →
      requireAdminToken h adminToken authHeader tokenHeader = GuardOutcome.reject 503) ∧
    (adminToken ≠ "" → extractProvided authHeader tokenHeader = "" →
      requireAdminToken h adminToken authHeader tokenHeader = GuardOutcome.reject 401) ∧
    (adminToken ≠ "" → h (extractProvided authHeader tokenHeader) ≠ h adminToken →
      requireAdminToken h adminToken authHeader tokenHeader = GuardOutcome.reject 401) := by
  by_cases hA : adminToken = ""
  · rw [requireAdminToken, if_pos hA]
    exact ⟨⟨fun hcontra => GuardOutcome.noConfusion hcontra, fun hand => absurd hA hand.1⟩,
      fun _ => rfl, fun hne => absurd hA hne, fun hne => absurd hA hne⟩
  · rw [requireAdminToken, if_neg hA]
    by_cases hp : extractProvided authHeader tokenHeader = ""
    · rw [if_pos hp]
      exact ⟨⟨fun hcontra => GuardOutcome.noConfusion hcontra,
          fun hand => absurd ((hinj hand.2).symm.trans hp) hA⟩,
        fun hA2 => absurd hA2 hA, fun _ _ => rfl, fun _ _ => rfl⟩
    · rw [if_neg hp]
      by_cases hd : h (extractProvided authHeader tokenHeader) = h adminToken
      · rw [if_pos hd]
        exact ⟨⟨fun _ => ⟨hA, hd⟩, fun _ => rfl⟩, fun hA2 => absurd hA2 hA,
          fun _ hp2 => absurd hp2 hp, fun _ hd2 => absurd hd hd2⟩
      · rw [if_neg hd]
        exact ⟨⟨fun hcontra => GuardOutcome.noConfusion hcontra, fun hand => absurd hand.2 hd⟩,
          fun hA2 => absurd hA2 hA, fun _ _ => rfl, fun _ _ => rfl⟩

/-- Witness for C8 with the identity digest: a matching Bearer token
proceeds, an unconfigured server answers 503, and a wrong x-admin-token
answers 401. -/
theorem admin_guard_fail_closed_witness :
    requireAdminToken (fun s : String => s) "s3cret" "Bearer s3cret" "" = GuardOutcome.proceed ∧
    requireAdminToken (fun s : String => s) "" "Bearer s3cret" "" = GuardOutcome.reject 503 ∧
    requireAdminToken (fun s : String => s) "s3cret" "" "wrong" = GuardOutcome.reject 401 :=
  ⟨((admin_guard_fail_closed (fun s => s) (fun _ _ hab => hab) "s3cret" "Bearer s3cret" "").1).mpr
      ⟨by decide, by decide⟩,
   (admin_guard_fail_closed (fun s => s) (fun _ _ hab => hab) "" "Bearer s3cret" "").2.1 rfl,
   (admin_guard_fail_closed (fun s => s) (fun _ _ hab => hab) "s3cret" "" "wrong").2.2.2
      (by decide) (by decide)⟩

/-- C2 counterexample: with a conclusion filter the page does not return
every run of the page's repositories — org/alpha is the only (and first)
distinct repository for status=success, yet its stored failure run is not
part of page 1's data, because the final query retains the status filter. -/
theorem list_pagination_filter_counterexample :
    failureRunSample ∈ mixedDb ∧
    failureRunSample.repository.fullName ∈
      pageSlice (distinctRepos mixedDb (listQueryOf none (some "success")))
        (effectivePage none) (effectivePageSize none) ∧
    failureRunSample ∉ (getAllWorkflowRuns mixedDb none none none (some "success")).data := by
  decide

/-- C2 as amended: total and totalPages are computed over the distinct
matching repository names (totalPages being the ceiling of their count
over the page size), and page p holds exactly the stored runs that satisfy
the status/conclusion part of the filter AND belong to a repository in
window (p-1)*pageSize..(p-1)*pageSize+pageSize-1 of the distinct list; on
the spec's 3-repository dataset with pageSize 2, page 1 draws only from
the first two repositories and totalPages is 2. -/
theorem list_pagination_two_phase (db : List WorkflowRun) (pageQ pageSizeQ : Option Int)
    (searchQ statusQ : Option String) :
    (getAllWorkflowRuns db pageQ pageSizeQ searchQ statusQ).pagination.total =
      (distinctRepos db (listQueryOf searchQ statusQ)).length ∧
    (getAllWorkflowRuns db pageQ pageSizeQ searchQ statusQ).pagination.totalPages =
      (distinctRepos db (listQueryOf searchQ statusQ)).length ⌈/⌉ (effectivePageSize pageSizeQ).toNat ∧
    (∀ d, d ∈ (getAllWorkflowRuns db pageQ pageSizeQ searchQ statusQ).data ↔
      d ∈ db ∧ matchesStatusPart (listQueryOf searchQ statusQ) d = true ∧
      d.repository.fullName ∈
        pageSlice (distinctRepos db (listQueryOf searchQ statusQ))
          (effectivePage pageQ) (effectivePageSize pageSizeQ)) ∧
    (getAllWorkflowRuns sampleDb3 (some 1) (some 2) none none).pagination.totalPages = 2 ∧
    (∀ d, d ∈ (getAllWorkflowRuns sampleDb3 (some 1) (some 2) none none).data →
      d.repository.fullName = "org/alpha" ∨ d.repository.fullName = "org/beta") := by
  refine ⟨rfl, rfl, ?_, by decide, by decide⟩
  intro d
  show d ∈ sortByCreatedDesc _ ↔ _
  rw [mem_sortByCreatedDesc, List.mem_filter]
  simp only [Bool.and_eq_true, decide_eq_true_eq]
  tauto

/-- Witness for C2 at the 3-repository dataset: an org/alpha run is served
on page 1. -/
theorem list_pagination_two_phase_witness :
    sampleRun "org/alpha" 1 ∈ (getAllWorkflowRuns sampleDb3 (some 1) (some 2) none none).data ∧
    ((sampleRun "org/beta" 3).repository.fullName = "org/alpha" ∨
      (sampleRun "org/beta" 3).repository.fullName = "org/beta") :=
  ⟨((list_pagination_two_phase sampleDb3 (some 1) (some 2) none none).2.2.1
      (sampleRun "org/alpha" 1)).mpr ⟨by decide, by decide, by decide⟩,
   (list_pagination_two_phase sampleDb3 (some 1) (some 2) none none).2.2.2.2
      (sampleRun "org/beta" 3) (by decide)⟩

/-- Helper for C7/C10: an entry of the synthetic catalogue-only block has
the requested workflow name, carries the repository document's catalogue,
and has no run data. -/
theorem mem_syntheticEntries {repoDoc : WorkflowRun} {w : String} {b : Bool} {e : RepoEntry}
    (he : e ∈ syntheticEntries repoDoc (some w) b) :
    e.workflow.name = w ∧ e.repository.workflows = repoDoc.repository.workflows ∧
    e.run = none := by
  simp only [syntheticEntries] at he
  split at he
  · split at he
    · rename_i k hk
      rw [List.mem_singleton] at he
      subst he
      have hp := List.find?_some hk
      exact ⟨eq_of_beq hp, rfl, rfl⟩
    · simp at he
  · simp at he

/-- Helper for C7/C10: the synthetic block never carries run data. -/
theorem filterMap_entryCreated_syntheticEntries (repoDoc : WorkflowRun) (wn : Option String)
    (b : Bool) : (syntheticEntries repoDoc wn b).filterMap entryCreated = [] := by
  cases wn with
  | none => rfl
  | some w =>
    simp only [syntheticEntries]
    split
    · split
      · simp [entryCreated]
      · rfl
    · rfl

/-- Helper for C7: re-wrapped stored runs expose exactly their stored
run.created_at timestamps, in order. -/
theorem filterMap_entryCreated_map_runToEntry (C : List Workflow) (L : List WorkflowRun) :
    (L.map (runToEntry C)).filterMap entryCreated = L.map (fun d => d.run.created_at) := by
  induction L with
  | nil => rfl
  | cons x xs ih => simp [entryCreated, runToEntry, ih]

/-- C7.  Per-repository listing order and filter: a success payload lists
its run-backed entries newest run.created_at first, a supplied workflow
name constrains every returned entry's workflow.name, every returned entry
carries the catalogue of the stored repository document, and every stored
run matching the repository (and workflow) filter is represented. -/
theorem repo_listing_sorted_filtered (db : List WorkflowRun) (repoPath : String)
    (wq : Option String) (pq psq : Option Int) (res : RepoListResult)
    (hres : getRepoWorkflowRuns db repoPath wq pq psq = RepoResponse.ok res) :
    List.Pairwise (fun x y : Int => y ≤ x) (res.data.filterMap entryCreated) ∧
    (∀ w, effectiveWorkflowName wq = some w → ∀ e ∈ res.data, e.workflow.name = w) ∧
    (∀ rd, db.find? (fun d => d.repository.fullName == repoPath) = some rd →
      ∀ e ∈ res.data, e.repository.workflows = rd.repository.workflows) ∧
    (∀ d ∈ db, repoRunFilter repoPath (effectiveWorkflowName wq) d = true →
      ∃ e ∈ res.data, e.run = some d.run ∧ e.workflow = d.workflow) := by
  simp only [getRepoWorkflowRuns] at hres
  split at hres
  · exact RepoResponse.noConfusion hres
  · split at hres
    · rename_i hfind
      cases hres
      refine ⟨by simp, by simp, by simp, ?_⟩
      intro d hd hflt
      have hnone : ∀ x ∈ db, ¬((fun d => d.repository.fullName == repoPath) x = true) :=
        List.find?_eq_none.mp hfind
      have hrepo : (d.repository.fullName == repoPath) = true := by
        simp only [repoRunFilter, Bool.and_eq_true] at hflt
        exact hflt.1
      exact absurd hrepo (hnone d hd)
    · rename_i repoDoc hfind
      cases hres
      refine ⟨?_, ?_, ?_, ?_⟩
      · show List.Pairwise _ (List.filterMap entryCreated (_ ++ _))
        rw [List.filterMap_append, filterMap_entryCreated_syntheticEntries,
          filterMap_entryCreated_map_runToEntry, List.append_nil]
        exact List.Pairwise.map _ (fun a b hab => hab)
          (createdDesc_sortByCreatedDesc (db.filter (repoRunFilter repoPath (effectiveWorkflowName wq))))
      · intro w hw e he
        rcases List.mem_append.mp he with hmem | hmem
        · obtain ⟨d, hd, rfl⟩ := List.mem_map.mp hmem
          have hd2 := (List.mem_filter.mp (mem_sortByCreatedDesc.mp hd)).2
          rw [hw] at hd2
          simp only [repoRunFilter, Bool.and_eq_true] at hd2
          exact eq_of_beq hd2.2
        · rw [hw] at hmem
          exact (mem_syntheticEntries hmem).1
      · intro rd hrd e he
        have hdoc : repoDoc = rd := by
          rw [hfind] at hrd
          exact Option.some.inj hrd
        subst hdoc
        rcases List.mem_append.mp he with hmem | hmem
        · obtain ⟨d, hd, rfl⟩ := List.mem_map.mp hmem
          rfl
        · cases hwn : effectiveWorkflowName wq with
          | none => rw [hwn] at hmem; simp [syntheticEntries] at hmem
          | some w => rw [hwn] at hmem; exact (mem_syntheticEntries hmem).2.1
      · intro d hd hflt
        refine ⟨runToEntry repoDoc.repository.workflows d, ?_, rfl, rfl⟩
        exact List.mem_append_left _
          (List.mem_map.mpr ⟨d, mem_sortByCreatedDesc.mpr (List.mem_filter.mpr ⟨hd, hflt⟩), rfl⟩)

/-- Witness for C7 at a two-run repository with workflow name ci. -/
theorem repo_listing_sorted_filtered_witness :
    List.Pairwise (fun x y : Int => y ≤ x) (repoResult.data.filterMap entryCreated) :=
  (repo_listing_sorted_filtered repoDb "org/alpha" (some "ci") none none repoResult (by decide)).1

/-- C10 counterexample: requesting the catalogued workflow build of
org/solo (which has no stored build run) yields a success payload whose
data holds one synthetic entry while pagination.total is 0, so total does
not equal the number of returned entries. -/
theorem repo_pagination_total_counterexample :
    (getRepoWorkflowRuns catalogueOnlyDb "org/solo" (some "build") none none).isSuccess = true ∧
    (getRepoWorkflowRuns catalogueOnlyDb "org/solo" (some "build") none none).dataLength = 1 ∧
    (getRepoWorkflowRuns catalogueOnlyDb "org/solo" (some "build") none none).totalCount = 0 := by
  decide

/-- C10 as amended: the per-repository listing ignores any page/pageSize
parameters and answers one success page with page 1, totalPages 1, and
total = pageSize = the number of stored runs matching the repository (and
optional workflow) filter; an unknown repository yields success with empty
data and total 0.  The data list consists of exactly those runs except in
the synthetic-placeholder case exhibited by the counterexample, where one
catalogue-only entry is returned while total stays 0. -/
theorem repo_listing_unpaginated (db : List WorkflowRun) (repoPath : String)
    (wq : Option String) (pq ps pq2 ps2 : Option Int) (hpath : repoPath ≠ "") :
    (∃ r, getRepoWorkflowRuns db repoPath wq pq ps = RepoResponse.ok r) ∧
    getRepoWorkflowRuns db repoPath wq pq ps = getRepoWorkflowRuns db repoPath wq pq2 ps2 ∧
    (∀ r, getRepoWorkflowRuns db repoPath wq pq ps = RepoResponse.ok r →
      r.pagination.page = 1 ∧ r.pagination.totalPages = 1 ∧
      r.pagination.total =
        (db.filter (repoRunFilter repoPath (effectiveWorkflowName wq))).length ∧
      r.pagination.pageSize = (r.pagination.total : Int) ∧
      (db.find? (fun d => d.repository.fullName == repoPath) = none →
        r.data = [] ∧ r.pagination.total = 0)) := by
  refine ⟨?_, rfl, ?_⟩
  · simp only [getRepoWorkflowRuns, if_neg hpath]
    cases db.find? (fun d => d.repository.fullName == repoPath) with
    | none => exact ⟨_, rfl⟩
    | some repoDoc => exact ⟨_, rfl⟩
  · intro r hr
    simp only [getRepoWorkflowRuns, if_neg hpath] at hr
    split at hr
    · rename_i hfind
      cases hr
      refine ⟨rfl, rfl, ?_, rfl, fun _ => ⟨rfl, rfl⟩⟩
      have hnone : ∀ x ∈ db, ¬((fun d => d.repository.fullName == repoPath) x = true) :=
        List.find?_eq_none.mp hfind
      have hnil : db.filter (repoRunFilter repoPath (effectiveWorkflowName wq)) = [] := by
        rw [List.filter_eq_nil_iff]
        intro a ha hcontra
        simp only [repoRunFilter, Bool.and_eq_true] at hcontra
        exact hnone a ha hcontra.1
      rw [hnil]
      rfl
    · rename_i repoDoc hfind
      cases hr
      refine ⟨rfl, rfl, ?_, ?_, ?_⟩
      · exact length_sortByCreatedDesc _
      · show ((sortByCreatedDesc _).length : Int) = _
        rw [length_sortByCreatedDesc]
      · intro hnone
        rw [hfind] at hnone
        exact Option.noConfusion hnone

/-- Witness for C10's amended theorem at a concrete repository, with
page/pageSize parameters supplied and ignored. -/
theorem repo_listing_unpaginated_witness :
    ∃ r, getRepoWorkflowRuns repoDb "org/alpha" none (some 5) (some 7) = RepoResponse.ok r :=
  (repo_listing_unpaginated repoDb "org/alpha" none (some 5) (some 7) none none (by decide)).1

end RunWatch
